import Mathlib

/-!
Verification of the BrightData webhook relay (misham-wigoh/brightdata-mvc).

This file gives a shallow embedding of the webhook payload shape detector,
the record classifier, the webhook receiver's authorization gate and
processing pipeline (src/pages/api/brightdata-webhook.ts, second handler),
and the Firebase persistence gateway (src/services/firebaseService.ts,
both variants present in the repository), and proves or refutes the
frozen claims about them.

JSON values are modelled by the inductive `Json`; the JavaScript value
`undefined` is modelled as `Option.none` (with `some v` a defined value).
Property access on `null`/`undefined` raises a TypeError, modelled with
`Except Unit`.  Objects are modelled as ordered field lists with unique
keys (JSON objects cannot carry duplicate keys); numbers are modelled as
integers (no payload field inspected by this code depends on fractional
values); wall-clock time (`Date.now()`, `Timestamp.now()`) is threaded as
an explicit `now : Nat` parameter.
-/

/-- A JSON value, as delivered in a webhook body or stored in Firestore. -/
inductive Json where
  | null : Json
  | bool : Bool → Json
  | num : Int → Json
  | str : String → Json
  | arr : List Json → Json
  | obj : List (String × Json) → Json
deriving Repr

mutual

/-- Decidable equality of JSON values (structural, as JavaScript `===`
behaves on the JSON fragments this code compares: strings and numbers). -/
def Json.deq (a b : Json) : Decidable (a = b) := by
  cases a <;> cases b <;>
    try { apply isFalse; intro h; injection h }
  case null.null => exact isTrue rfl
  case bool.bool x y =>
    exact match decEq x y with
    | isTrue h => isTrue (by rw [h])
    | isFalse _ => isFalse (by intro h; injection h; contradiction)
  case num.num x y =>
    exact match decEq x y with
    | isTrue h => isTrue (by rw [h])
    | isFalse _ => isFalse (by intro h; injection h; contradiction)
  case str.str x y =>
    exact match decEq x y with
    | isTrue h => isTrue (by rw [h])
    | isFalse _ => isFalse (by intro h; injection h; contradiction)
  case arr.arr xs ys =>
    exact match Json.deqList xs ys with
    | isTrue h => isTrue (by rw [h])
    | isFalse _ => isFalse (by intro h; injection h; contradiction)
  case obj.obj xs ys =>
    exact match Json.deqFields xs ys with
    | isTrue h => isTrue (by rw [h])
    | isFalse _ => isFalse (by intro h; injection h; contradiction)

/-- Decidable equality of JSON value lists. -/
def Json.deqList (xs ys : List Json) : Decidable (xs = ys) :=
  match xs, ys with
  | [], [] => isTrue rfl
  | _ :: _, [] | [], _ :: _ => isFalse (by intro h; cases h)
  | x :: xs, y :: ys =>
    match Json.deq x y, Json.deqList xs ys with
    | isTrue h₁, isTrue h₂ => isTrue (by rw [h₁, h₂])
    | isFalse _, _ => isFalse (by intro h; injection h; contradiction)
    | _, isFalse _ => isFalse (by intro h; injection h; contradiction)

/-- Decidable equality of JSON object field lists. -/
def Json.deqFields (xs ys : List (String × Json)) : Decidable (xs = ys) :=
  match xs, ys with
  | [], [] => isTrue rfl
  | _ :: _, [] | [], _ :: _ => isFalse (by intro h; cases h)
  | (k₁, v₁) :: xs, (k₂, v₂) :: ys =>
    match decEq k₁ k₂, Json.deq v₁ v₂, Json.deqFields xs ys with
    | isTrue h₁, isTrue h₂, isTrue h₃ => isTrue (by rw [h₁, h₂, h₃])
    | isFalse _, _, _ => isFalse (by intro h; injection h with h h'; injection h; contradiction)
    | _, isFalse _, _ => isFalse (by intro h; injection h with h h'; injection h; contradiction)
    | _, _, isFalse _ => isFalse (by intro h; injection h; contradiction)

end

instance : DecidableEq Json := Json.deq

/-- JavaScript truthiness of a defined value: `null`, `false`, `0` and `""`
are falsy; every array and object is truthy. -/
def truthy : Json → Bool
  | .null => false
  | .bool b => b
  | .num n => n != 0
  | .str s => s != ""
  | .arr _ => true
  | .obj _ => true

/-- JavaScript truthiness of a possibly-`undefined` value. -/
def truthyO : Option Json → Bool
  | none => false
  | some v => truthy v

/-- Field lookup in an object's field list (keys are unique in JSON). -/
def lookupField : List (String × Json) → String → Option Json
  | [], _ => none
  | (k, v) :: rest, f => if k = f then some v else lookupField rest f

/-- JavaScript member access `v.f`: throws a TypeError on `null` or
`undefined`; yields `undefined` for a missing field or a primitive/array
receiver (none of the field names accessed by this code is a built-in
property of a boxed primitive or array). -/
def member (v : Option Json) (f : String) : Except Unit (Option Json) :=
  match v with
  | none => .error ()
  | some .null => .error ()
  | some (.obj fs) => .ok (lookupField fs f)
  | some _ => .ok none

/-- Optional-chaining member access `v?.f`: `undefined` on a `null` or
`undefined` receiver instead of throwing. -/
def optMember (v : Option Json) (f : String) : Option Json :=
  match v with
  | none => none
  | some .null => none
  | some (.obj fs) => lookupField fs f
  | some _ => none

/-- Plain member access on a value known to be defined and non-null. -/
def jsGet (o : Json) (f : String) : Option Json :=
  match o with
  | .obj fs => lookupField fs f
  | _ => none

/-- JavaScript `a || b` on possibly-undefined values. -/
def jsOr (a b : Option Json) : Option Json :=
  if truthyO a then a else b

/-- JavaScript `a || d` where the fallback is a defined value. -/
def jsOrD (a : Option Json) (d : Json) : Json :=
  match a with
  | some v => if truthy v then v else d
  | none => d

mutual

/-- String coercion used by template literals (`Array.prototype.toString`
joins elements with commas, rendering `null` elements as empty). -/
def jsToString : Json → String
  | .null => "null"
  | .bool b => cond b "true" "false"
  | .num n => toString n
  | .str s => s
  | .obj _ => "[object Object]"
  | .arr xs => String.intercalate "," (jsToStringList xs)

/-- Element rendering inside an array join: `null` becomes empty. -/
def jsToStringList : List Json → List String
  | [] => []
  | .null :: rest => "" :: jsToStringList rest
  | v :: rest => jsToString v :: jsToStringList rest

end

/-- `extractSnapshotId(payload)` (brightdata-webhook.ts lines 363-370):
`payload.snapshot_id || payload.snapshot || payload.id || payload.snapshotId
|| null`.  Throws when `payload` is `null` or `undefined`. -/
def extractSnapshotId (payload : Option Json) : Except Unit Json := do
  let a ← member payload "snapshot_id"
  let b ← member payload "snapshot"
  let c ← member payload "id"
  let d ← member payload "snapshotId"
  pure ((jsOr a (jsOr b (jsOr c (jsOr d (some .null))))).getD .null)

/-- `extractJobDataFromPayload(payload)` (brightdata-webhook.ts lines
373-419).  Returns the extracted record list and the snapshot identifier
(`Json.null` when none was recovered); `.error` models a thrown
TypeError.  `now` stands for `Date.now()`. -/
def extractJobDataFromPayload (now : Nat) (payload : Json) :
    Except Unit (List Json × Json) :=
  match payload with
  -- Case 1: direct array format
  | .arr [] => .ok ([], .null)
  | .arr (firstItem :: rest) => do
    let inputF ← member (some firstItem) "input"
    let s1 ← extractSnapshotId inputF
    if truthy s1 then
      .ok (firstItem :: rest, s1)
    else do
      let s2 ← extractSnapshotId (some firstItem)
      if truthy s2 then
        .ok (firstItem :: rest, s2)
      else do
        let jpid ← member (some firstItem) "job_posting_id"
        .ok (firstItem :: rest,
             .str ("job_" ++ jsToString (jsOrD jpid (.num now))))
  | p => do
    let dataF ← member (some p) "data"
    match dataF with
    -- Case 2: wrapped format { data: [...] } (an array is always truthy)
    | some (.arr l) => do
      let sid ← extractSnapshotId (some p)
      .ok (l, sid)
    | _ => do
      let jt ← member (some p) "job_title"
      let co ← member (some p) "company"
      let ju ← member (some p) "job_url"
      -- Case 3: single object with job data
      if truthyO jt || truthyO co || truthyO ju then do
        let sid ← extractSnapshotId (some p)
        if truthy sid then .ok ([p], sid)
        else .ok ([p], .str ("single_" ++ toString now))
      else do
        let resF ← member (some p) "results"
        match resF with
        -- Case 4: nested structure { results: [...] }
        | some (.arr l) => do
          let sid ← extractSnapshotId (some p)
          .ok (l, sid)
        | _ => do
          let st ← member (some p) "status"
          let sid1 ← member (some p) "snapshot_id"
          let sid2 ← member (some p) "id"
          -- Case 5: status update only (guard checks snapshot_id and id only)
          if truthyO st && (truthyO sid1 || truthyO sid2) then do
            let sid ← extractSnapshotId (some p)
            .ok ([], sid)
          else
            -- Case 6: no match
            .ok ([], .null)

/-- Prefix test on character lists. -/
def charPrefix : List Char → List Char → Bool
  | [], _ => true
  | _ :: _, [] => false
  | a :: as, b :: bs => a == b && charPrefix as bs

/-- Substring scan on character lists. -/
def charIncludes (pat : List Char) : List Char → Bool
  | [] => charPrefix pat []
  | c :: rest => charPrefix pat (c :: rest) || charIncludes pat rest

/-- Substring test, as JavaScript `String.prototype.includes`. -/
def strIncludes (s pat : String) : Bool :=
  charIncludes pat.data s.data

/-- `v?.includes(pat)` on a field value: short-circuits to `false` on
`null`/`undefined`; substring test on strings; element membership on
arrays (`Array.prototype.includes`); TypeError on other receivers,
which have no `includes` method. -/
def jsIncludes (v : Option Json) (pat : String) : Except Unit Bool :=
  match v with
  | none => .ok false
  | some .null => .ok false
  | some (.str s) => .ok (strIncludes s pat)
  | some (.arr xs) => .ok (xs.contains (.str pat))
  | some _ => .error ()

/-- Whether `v?.substring(0, 50)` evaluates without a TypeError: fine on
`null`/`undefined` (short-circuit) and on strings, a TypeError otherwise. -/
def jsSubstringOk (v : Option Json) : Bool :=
  match v with
  | none | some .null | some (.str _) => true
  | some _ => false

/-- `determineJobType(data)` (brightdata-webhook.ts lines 253-315).
The initial diagnostic `console.log` evaluates `firstItem.url`,
`firstItem.url?.substring(0, 50)` and `firstItem.job_url?.substring(0, 50)`,
so a `null` first record or a non-string composite in those fields throws
before any classification branch runs. -/
def determineJobType (data : List Json) : Except Unit String :=
  match data with
  | [] => .ok "unknown"
  | firstItem :: _ => do
    let url ← member (some firstItem) "url"
    let jobUrl ← member (some firstItem) "job_url"
    if !(jsSubstringOk url && jsSubstringOk jobUrl) then .error () else do
    let domain ← member (some firstItem) "domain"
    let companyLink ← member (some firstItem) "company_link"
    let discoveryInput ← member (some firstItem) "discovery_input"
    let input ← member (some firstItem) "input"
    let companyUrl ← member (some firstItem) "company_url"
    let jobPostingId ← member (some firstItem) "job_posting_id"
    let linkedinUrl ← member (some firstItem) "linkedin_url"
    let jobTitle ← member (some firstItem) "job_title"
    let companyName ← member (some firstItem) "company_name"
    let company ← member (some firstItem) "company"
    -- Indeed check (first)
    let b ← jsIncludes domain "indeed.com"
    if b then .ok "indeed_jobs" else do
    let b ← jsIncludes url "indeed.com"
    if b then .ok "indeed_jobs" else do
    let b ← jsIncludes jobUrl "indeed.com"
    if b then .ok "indeed_jobs" else do
    let b ← jsIncludes companyLink "indeed.com"
    if b then .ok "indeed_jobs" else
    if truthyO discoveryInput && (optMember discoveryInput "domain" = some (.str "indeed.com")) then
      .ok "indeed_jobs"
    else if truthyO input && (optMember input "domain" = some (.str "indeed.com")) then
      .ok "indeed_jobs"
    else do
    -- LinkedIn job check
    let b ← jsIncludes url "linkedin.com/jobs"
    if b then .ok "linkedin_jobs" else do
    let b ← jsIncludes jobUrl "linkedin.com"
    if b then .ok "linkedin_jobs" else do
    let b ← jsIncludes companyUrl "linkedin.com"
    if b then .ok "linkedin_jobs" else
    if truthyO jobPostingId then .ok "linkedin_jobs" else do
    let b ← (if truthyO url then do
               let b1 ← jsIncludes url "linkedin.com"
               if b1 then do
                 let b2 ← jsIncludes url "company"
                 pure (!b2)
               else pure false
             else pure false)
    if b then .ok "linkedin_jobs" else
    -- LinkedIn company check
    if truthyO linkedinUrl then .ok "linkedin_company" else do
    let b ← (if truthyO companyUrl then jsIncludes companyUrl "linkedin.com/company"
             else pure false)
    if b then .ok "linkedin_company" else do
    let b ← (if truthyO url then jsIncludes url "linkedin.com/company"
             else pure false)
    if b then .ok "linkedin_company" else
    -- Generic job search fallback
    if truthyO jobTitle || truthyO companyName || truthyO company then .ok "job_search"
    else .ok "unknown"

/-- An object literal entry whose value may be `undefined`: a key set to
`undefined` is invisible to field lookups and is stripped by every
consumer of these objects, so it is modelled by omitting the entry. -/
def optEntry (k : String) (v : Option Json) : List (String × Json) :=
  match v with
  | some x => [(k, x)]
  | none => []

/-- `extractSearchParams(data, jobType)` (brightdata-webhook.ts lines
318-360).  Errors model TypeErrors (a `null` element reached by the
`linkedin_company` mapping, or a `null` first record). -/
def extractSearchParams (data : List Json) (jobType : String) :
    Except Unit Json := do
  if (jobType = "job_search" || jobType = "indeed_jobs" || jobType = "linkedin_jobs")
      && !data.isEmpty then
    match data with
    | [] => .ok (.obj [])
    | firstJob :: _ => do
      let discoveryInput ← member (some firstJob) "discovery_input"
      if truthyO discoveryInput then
        .ok (.obj (optEntry "keyword" (optMember discoveryInput "keyword")
          ++ optEntry "location" (optMember discoveryInput "location")
          ++ optEntry "country" (optMember discoveryInput "country")))
      else do
        let input ← member (some firstJob) "input"
        let inputDiscovery := optMember input "discovery_input"
        if truthyO inputDiscovery then
          .ok (.obj (optEntry "keyword" (optMember inputDiscovery "keyword")
            ++ optEntry "location" (optMember inputDiscovery "location")
            ++ optEntry "country" (optMember inputDiscovery "country")))
        else if truthyO input then
          .ok (.obj (optEntry "keyword"
              (jsOr (optMember input "keyword_search") (optMember input "keyword"))
            ++ optEntry "location" (optMember input "location")
            ++ optEntry "country" (optMember input "country")
            ++ optEntry "domain" (optMember input "domain")))
        else .ok (.obj [])
  else if jobType = "linkedin_company" && !data.isEmpty then do
    let urls ← data.mapM (fun item => do
      let lu ← member (some item) "linkedin_url"
      let cu ← member (some item) "company_url"
      let u ← member (some item) "url"
      pure (jsOr lu (jsOr cu u)))
    let companyUrls := (urls.filterMap id).filter truthy
    if companyUrls.length > 0 then
      .ok (.obj [("companyUrls", .arr companyUrls)])
    else .ok (.obj [])
  else .ok (.obj [])

/-- JavaScript `a || d` on an optional string header/query value (an empty
string is falsy). -/
def strOr (a : Option String) (d : String) : String :=
  match a with
  | some s => if s ≠ "" then s else d
  | none => d

/-- Truthiness of an optional string (configured = present and non-empty). -/
def truthyS : Option String → Bool
  | none => false
  | some s => s != ""

/-- The credential-bearing parts of an inbound webhook request. -/
structure AuthInput where
  authorization : Option String
  xBrightdataAuth : Option String
  brightdataAuth : Option String
  authQueryParam : Option String

/-- The webhook authorization gate (brightdata-webhook.ts lines 442-472):
`true` means the request is rejected with HTTP 401.  `ws` and `api` are
the `WEBHOOK_SECRET` and `BRIGHTDATA_API_KEY` environment variables. -/
def webhookUnauthorized (ws api : Option String) (rq : AuthInput) : Bool :=
  let expectedSecret := if truthyS ws then ws else api
  let authHeader := strOr rq.authorization ""
  let brightDataAuthHeader := strOr rq.xBrightdataAuth (strOr rq.brightdataAuth "")
  let urlAuthParam := strOr rq.authQueryParam ""
  let isValidAuth :=
    (expectedSecret.map (fun s =>
        authHeader == "Bearer " ++ s
        || authHeader == s
        || brightDataAuthHeader == s
        || urlAuthParam == s)).getD false
      || !truthyS expectedSecret
  truthyS expectedSecret && !isValidAuth

mutual

/-- `FirebaseJobService.cleanUndefinedValues` (firebaseService.ts lines
56-80): `null`/`undefined` become an empty object; array elements are
cleaned in place; object entries are dropped when the value is `null` or
cleans to an empty object or empty array (`typeof [] === 'object'` and
`Object.keys([]).length === 0`, so empty arrays are also dropped). -/
def cleanUndefinedValues : Json → Json
  | .null => .obj []
  | .arr xs => .arr (cleanList xs)
  | .obj fs => .obj (cleanFields fs)
  | v => v

/-- Array branch of the cleaning (the `filter(item => item !== undefined)`
is a no-op because the map never produces `undefined`). -/
def cleanList : List Json → List Json
  | [] => []
  | x :: rest => cleanUndefinedValues x :: cleanList rest

/-- Object branch of the cleaning. -/
def cleanFields : List (String × Json) → List (String × Json)
  | [] => []
  | (k, v) :: rest =>
    if v = .null then cleanFields rest
    else
      let cv := cleanUndefinedValues v
      if cv = .obj [] ∨ cv = .arr [] then cleanFields rest
      else (k, cv) :: cleanFields rest

end

/-- The two Firestore partitions of the two-collection service variant. -/
inductive CollKind where
  | linkedin
  | indeed
deriving DecidableEq, Repr

/-- `String.prototype.toLowerCase` (the four collection names compared
are ASCII). -/
def jsToLowerCase (s : String) : String :=
  String.mk (s.data.map Char.toLower)

/-- `FirebaseJobService.getCollection` (firebaseService.ts lines 85-96):
`jobType?.toLowerCase()` switched over the four recognized names; every
other value (including `undefined`, `null` and non-strings, which either
fall to the `default` branch or fail at `.toLowerCase()`) throws
`Unknown job type`. -/
def getCollection (jobType : Option Json) : Except Unit CollKind :=
  match jobType with
  | some (.str s) =>
    if jsToLowerCase s = "linkedin_jobs" ∨ jsToLowerCase s = "linkedin" then .ok .linkedin
    else if jsToLowerCase s = "indeed_jobs" ∨ jsToLowerCase s = "indeed" then .ok .indeed
    else .error ()
  | _ => .error ()

/-- The document store of the two-collection service: `linkedin_jobs` and
`indeed_jobs`, each a list of (document id, document) pairs, plus the id
the backend will assign to the next inserted document. -/
structure Store where
  linkedin : List (Nat × Json)
  indeed : List (Nat × Json)
  nextId : Nat
deriving DecidableEq, Repr

/-- The documents of one partition. -/
def collOf (st : Store) : CollKind → List (Nat × Json)
  | .linkedin => st.linkedin
  | .indeed => st.indeed

/-- Object-spread semantics `{...v}`: the fields of an object, nothing for
`undefined`, `null` or non-objects (no spread in this code is applied to
a string). -/
def spreadFields : Option Json → List (String × Json)
  | some (.obj fs) => fs
  | _ => []

/-- Field-list merge for object literals with spreads and for Firestore
top-level `update`: entries of `over` replace same-keyed entries of
`base` and are appended otherwise. -/
def mergeFields (base over : List (String × Json)) : List (String × Json) :=
  base.filter (fun p => (lookupField over p.1).isNone) ++ over

/-- Set one field of a field list. -/
def setField (fs : List (String × Json)) (k : String) (v : Json) :
    List (String × Json) :=
  mergeFields fs [(k, v)]

/-- `formatTimestamp(Timestamp.now())`: the wall-clock formatting is
modelled as an opaque injective function of the current time. -/
def formatTimestamp (now : Nat) : String :=
  "time@" ++ toString now

/-- `const dataArray = Array.isArray(jobData.data) ? jobData.data : []`
(firebaseService.ts line 107). -/
def saveDataArray (jobData : Json) : List Json :=
  match jsGet jobData "data" with
  | some (.arr l) => l
  | _ => []

/-- The `docData` object literal `saveJobData` builds (lines 121-137),
before the recursive cleaning: fallback defaults for `status`, `jobType`
and the timestamps, `metadata` assembled from defaults overridden by the
caller's metadata spread, and the caller's `searchParams` or `{}`. -/
def saveDocFields (now : Nat) (jobData : Json) : List (String × Json) :=
  let dataArray := saveDataArray jobData
  let m := jsGet jobData "metadata"
  let baseMeta :=
    [("triggeredAt", jsOrD (optMember m "triggeredAt") (.str (formatTimestamp now))),
     ("completedAt", jsOrD (optMember m "completedAt") (.str (formatTimestamp now))),
     ("dataCount", .num dataArray.length)]
    ++ optEntry "webhookPayload" (optMember m "webhookPayload")
    ++ [("processedAt", .str (formatTimestamp now))]
  let metaObj := Json.obj (mergeFields baseMeta (spreadFields m))
  optEntry "snapshotId" (jsGet jobData "snapshotId")
   ++ [("status", jsOrD (jsGet jobData "status") (.str "completed")),
       ("jobType", jsOrD (jsGet jobData "jobType") (.str "unknown")),
       ("data", .arr dataArray),
       ("metadata", cleanUndefinedValues metaObj),
       ("searchParams", cleanUndefinedValues (jsOrD (jsGet jobData "searchParams") (.obj []))),
       ("createdAt", jsOrD (jsGet jobData "createdAt") (.str (formatTimestamp now))),
       ("updatedAt", .str (formatTimestamp now))]

/-- `FirebaseJobService.saveJobData` (two-collection variant,
firebaseService.ts lines 102-179): builds `docData` with fallback
defaults, cleans it recursively, selects the partition from the cleaned
`jobType` (throwing `Unknown job type` for unpartitioned categories) and
inserts it, returning the new document id. -/
def saveJobData (now : Nat) (jobData : Json) (st : Store) :
    Except Unit (Nat × Store) := do
  let cleanedDocData := cleanUndefinedValues (.obj (saveDocFields now jobData))
  let coll ← getCollection (jsGet cleanedDocData "jobType")
  match coll with
  | .linkedin =>
    .ok (st.nextId, { st with linkedin := st.linkedin ++ [(st.nextId, cleanedDocData)],
                              nextId := st.nextId + 1 })
  | .indeed =>
    .ok (st.nextId, { st with indeed := st.indeed ++ [(st.nextId, cleanedDocData)],
                              nextId := st.nextId + 1 })

/-- Whether the success log of `getJobBySnapshotId` evaluates without a
TypeError: it reads `jobData.metadata.dataCount` and `jobData.data.length`,
which throw when `metadata` or `data` is missing or `null`. -/
def jobReadOk (doc : Json) : Bool :=
  (match jsGet doc "metadata" with
   | none | some .null => false
   | some _ => true)
  && (match jsGet doc "data" with
      | none | some .null => false
      | some _ => true)

/-- First document of a partition matching `where('snapshotId','==',sid)`. -/
def findBySnapshot (docs : List (Nat × Json)) (sid : Json) : Option (Nat × Json) :=
  docs.find? (fun p => jsGet p.2 "snapshotId" == some sid)

/-- `FirebaseJobService.getJobBySnapshotId` (two-collection variant,
firebaseService.ts lines 228-265): scans `linkedin_jobs` then
`indeed_jobs`, returning the first match; rethrows the TypeError of its
own success log when the found document lacks `metadata` or `data`. -/
def getJobBySnapshotId (sid : Json) (st : Store) :
    Except Unit (Option (Nat × Json)) :=
  match findBySnapshot st.linkedin sid with
  | some (i, doc) => if jobReadOk doc then .ok (some (i, doc)) else .error ()
  | none =>
    match findBySnapshot st.indeed sid with
    | some (i, doc) => if jobReadOk doc then .ok (some (i, doc)) else .error ()
    | none => .ok none

/-- Firestore top-level document update applied to every entry with the
given id. -/
def updateDocs (docs : List (Nat × Json)) (docId : Nat)
    (updates : List (String × Json)) : List (Nat × Json) :=
  docs.map (fun p =>
    if p.1 = docId then (p.1, Json.obj (mergeFields (spreadFields (some p.2)) updates))
    else p)

/-- The top-level field updates `updateJobData` applies:
`{...updateData, updatedAt}`, with `updates.metadata` replaced by
`{...updateData.metadata, dataCount: data.length}` when `updateData.data`
is an array. -/
def updateFieldsOf (now : Nat) (updateData : Json) : List (String × Json) :=
  let updates := mergeFields (spreadFields (some updateData))
    [("updatedAt", .str (formatTimestamp now))]
  match jsGet updateData "data" with
  | some (.arr l) =>
    setField updates "metadata"
      (.obj (mergeFields (spreadFields (lookupField updates "metadata"))
        [("dataCount", .num l.length)]))
  | _ => updates

/-- `FirebaseJobService.updateJobData` (two-collection variant,
firebaseService.ts lines 184-223): selects the partition from the given
`jobType`, fails if the document is not there, then applies the
top-level updates above. -/
def updateJobData (now : Nat) (docId : Nat) (updateData : Json)
    (jobType : Option Json) (st : Store) : Except Unit Store := do
  let coll ← getCollection jobType
  let docs := collOf st coll
  if (docs.find? (fun p => p.1 == docId)).isNone then .error () else
  .ok (match coll with
       | .linkedin =>
         { st with linkedin := updateDocs st.linkedin docId (updateFieldsOf now updateData) }
       | .indeed =>
         { st with indeed := updateDocs st.indeed docId (updateFieldsOf now updateData) })

/-- Failure injection for the document store: when a flag is set the
corresponding Firestore call rejects (network/credential failure), which
the handler catches. -/
structure FbFlags where
  getFails : Bool
  saveFails : Bool
  updateFails : Bool

/-- A file written by the local backup writer
(`<kind>_<snapshotId>_<Date.now()>.json` under `output/`). -/
structure LocalFile where
  name : String
  content : Json
deriving DecidableEq, Repr

/-- What the webhook POST handler produces: HTTP status, the body's
top-level `success` flag (absent on the 400 response), the body's
`firebase.saved` flag (`!!firebaseDocId`; `false` whenever no 200 body
carries one), the resulting document store and the local files written. -/
structure HandlerResult where
  status : Nat
  success : Option Bool
  fbSaved : Bool
  store : Store
  files : List LocalFile
deriving Repr

/-- The `jobData` object the handler prepares for Firebase when records
were extracted (brightdata-webhook.ts lines 520-545); errors are the
TypeErrors `determineJobType` / `extractSearchParams` can throw on
malformed records. -/
def buildJobData (now : Nat) (payload : Json) (snapshotId : Json)
    (dataArray : List Json) : Except Unit Json := do
  let jobType ← determineJobType dataArray
  let searchParams ← extractSearchParams dataArray jobType
  .ok (.obj
    [("snapshotId", snapshotId),
     ("status", .str "completed"),
     ("jobType", .str jobType),
     ("data", .arr dataArray),
     ("metadata", .obj
       [("triggeredAt", .str (formatTimestamp now)),
        ("completedAt", .str (formatTimestamp now)),
        ("dataCount", .num dataArray.length),
        ("webhookPayload", payload),
        ("processedAt", .str (formatTimestamp now))]),
     ("searchParams", searchParams)])

/-- The existing-record lookup with its enclosing try/catch
(brightdata-webhook.ts lines 548-560): a store failure or a rethrown
read TypeError leaves `existingJob` as `null`. -/
def lookupExistingJob (fb : FbFlags) (snapshotId : Json) (st : Store) :
    Option (Nat × Json) :=
  if fb.getFails then none
  else
    match getJobBySnapshotId snapshotId st with
    | .error _ => none
    | .ok r => r

/-- The webhook POST processing pipeline after the authorization gate
(brightdata-webhook.ts lines 474-651): shape detection, 400 on a missing
identifier, local backup files, record classification, and the Firebase
save/update with every store failure caught (the response stays 200). -/
def processWebhook (fb : FbFlags) (now : Nat) (payload : Json) (st : Store) :
    HandlerResult :=
  match extractJobDataFromPayload now payload with
  | .error _ =>
    { status := 500, success := some false, fbSaved := false, store := st, files := [] }
  | .ok (dataArray, snapshotId) =>
    if !truthy snapshotId then
      { status := 400, success := none, fbSaved := false, store := st, files := [] }
    else
      let webhookFile : LocalFile :=
        { name := "webhook_" ++ jsToString snapshotId ++ "_" ++ toString now ++ ".json",
          content := payload }
      if dataArray.isEmpty then
        match lookupExistingJob fb snapshotId st with
        | none =>
          { status := 200, success := some true, fbSaved := false,
            store := st, files := [webhookFile] }
        | some (docId, doc) =>
          match jsOr (jsGet payload "status") (jsGet doc "status") with
          | none =>
            -- both absent: the update carries `status: undefined`,
            -- Firestore rejects it, the handler catches the error
            { status := 200, success := some true, fbSaved := false,
              store := st, files := [webhookFile] }
          | some statusVal =>
            let statusUpdate := Json.obj
              [("status", statusVal),
               ("metadata", .obj (mergeFields (spreadFields (jsGet doc "metadata"))
                  [("webhookPayload", payload),
                   ("lastStatusUpdate", .str (formatTimestamp now))]))]
            if fb.updateFails then
              { status := 200, success := some true, fbSaved := false,
                store := st, files := [webhookFile] }
            else
              match updateJobData now docId statusUpdate (jsGet doc "jobType") st with
              | .error _ =>
                { status := 200, success := some true, fbSaved := false,
                  store := st, files := [webhookFile] }
              | .ok st' =>
                { status := 200, success := some true, fbSaved := true,
                  store := st', files := [webhookFile] }
      else
        let dataFile : LocalFile :=
          { name := "data_" ++ jsToString snapshotId ++ "_" ++ toString now ++ ".json",
            content := .arr dataArray }
        let files := [webhookFile, dataFile]
        match buildJobData now payload snapshotId dataArray with
        | .error _ =>
          { status := 500, success := some false, fbSaved := false, store := st, files := files }
        | .ok jobData =>
          match lookupExistingJob fb snapshotId st with
          | some (docId, doc) =>
            let updateData := Json.obj
              [("status", .str "completed"),
               ("data", .arr dataArray),
               ("metadata", .obj (mergeFields (spreadFields (jsGet doc "metadata"))
                  [("completedAt", .str (formatTimestamp now)),
                   ("dataCount", .num dataArray.length),
                   ("webhookPayload", payload),
                   ("processedAt", .str (formatTimestamp now))]))]
            if fb.updateFails then
              { status := 200, success := some true, fbSaved := false,
                store := st, files := files }
            else
              match updateJobData now docId updateData (jsGet doc "jobType") st with
              | .error _ =>
                { status := 200, success := some true, fbSaved := false,
                  store := st, files := files }
              | .ok st' =>
                { status := 200, success := some true, fbSaved := true,
                  store := st', files := files }
          | none =>
            if fb.saveFails then
              { status := 200, success := some true, fbSaved := false,
                store := st, files := files }
            else
              match saveJobData now jobData st with
              | .error _ =>
                { status := 200, success := some true, fbSaved := false,
                  store := st, files := files }
              | .ok (_, st') =>
                { status := 200, success := some true, fbSaved := true,
                  store := st', files := files }

/-- The document store of the single-collection service variant
(`brightdata_jobs`): (document id, document) pairs; Firestore document
ids are non-empty strings. -/
abbrev Store2 := List (String × Json)

/-- Firestore document update for the single-collection variant: plain
keys replace top-level fields; the dotted path `metadata.dataCount`
(the only dotted key this code produces) sets the nested field, creating
the intermediate map if needed. -/
def v2ApplyUpdates (doc : Json) (updates : List (String × Json)) : Json :=
  let plain := updates.filter (fun p => p.1 ≠ "metadata.dataCount")
  let base := Json.obj (mergeFields (spreadFields (some doc)) plain)
  match lookupField updates "metadata.dataCount" with
  | none => base
  | some v =>
    match base with
    | .obj fs =>
      .obj (setField fs "metadata"
        (.obj (setField (spreadFields (lookupField fs "metadata")) "dataCount" v)))
    | _ => base

/-- `FirebaseJobService.updateJobData` (single-collection variant,
firebaseService.ts lines 457-491): applies `{...updateData, updatedAt}`;
when `updateData.data` is an array, a truthy `updates.metadata` gets its
`dataCount` set in place, otherwise the dotted `metadata.dataCount` path
is used.  Throws when the document id is not a string or no document has
it (Firestore rejects both). -/
def updateJobDataV2 (now : Nat) (docId : Json) (updateData : Json)
    (st : Store2) : Except Unit Store2 := do
  let updates := mergeFields (spreadFields (some updateData))
    [("updatedAt", .str (formatTimestamp now))]
  let updates :=
    match jsGet updateData "data" with
    | some (.arr l) =>
      if truthyO (lookupField updates "metadata") then
        setField updates "metadata"
          (.obj (mergeFields (spreadFields (lookupField updates "metadata"))
            [("dataCount", .num l.length)]))
      else
        updates ++ [("metadata.dataCount", .num l.length)]
    | _ => updates
  match docId with
  | .str key =>
    if (st.find? (fun p => p.1 == key)).isNone then .error ()
    else .ok (st.map (fun p =>
      if p.1 = key then (p.1, v2ApplyUpdates p.2 updates) else p))
  | _ => .error ()

/-- `Array.isArray(data.data) ? data.data.length : 0`. -/
def v2Actual (doc : Json) : Int :=
  match jsGet doc "data" with
  | some (.arr l) => (l.length : Int)
  | _ => 0

/-- One document's mismatch test (firebaseService.ts lines 648-659):
`recordedCount = data.metadata.dataCount || 0`, mismatch when it is not
strictly equal to the actual count.  Reading `data.metadata.dataCount`
throws when `metadata` is missing or `null`. -/
def v2Mismatch (doc : Json) : Except Unit Bool := do
  let dc ← member (jsGet doc "metadata") "dataCount"
  let recordedCount := jsOrD dc (.num 0)
  pure (decide (recordedCount ≠ Json.num (v2Actual doc)))

/-- `FirebaseJobService.findDataCountMismatches` (firebaseService.ts lines
643-667): the mismatched documents, each as `{id: doc.id, ...data}` —
note the spread comes second, so a document's own `id` field would
shadow the Firestore id.  Modelled as (effective id value, document). -/
def v2FindLoop : Store2 → Except Unit (List (Json × Json))
  | [] => .ok []
  | (k, doc) :: rest => do
    let b ← v2Mismatch doc
    let tail ← v2FindLoop rest
    if b then .ok (((jsGet doc "id").getD (.str k), doc) :: tail) else .ok tail

/-- `findDataCountMismatches` on the whole collection. -/
def findDataCountMismatches (st : Store2) : Except Unit (List (Json × Json)) :=
  v2FindLoop st

/-- The update object one repair iteration sends:
`{metadata: {...job.metadata, dataCount: actualCount, fixedAt: now}}`. -/
def fixUpdObj (now : Nat) (doc : Json) : Json :=
  .obj [("metadata", .obj (mergeFields (spreadFields (jsGet doc "metadata"))
    [("dataCount", .num (v2Actual doc)),
     ("fixedAt", .str (formatTimestamp now))]))]

/-- The per-document repair loop of `fixDataCountMismatches`
(firebaseService.ts lines 677-690): documents with a truthy `job.id` get
the `metadata` replacement above and count toward `fixed`. -/
def v2FixLoop (now : Nat) : List (Json × Json) → Store2 → Nat →
    Except Unit (Nat × Store2)
  | [], st, fixed => .ok (fixed, st)
  | (jobId, doc) :: rest, st, fixed =>
    if truthy jobId then
      match updateJobDataV2 now jobId (fixUpdObj now doc) st with
      | .error e => .error e
      | .ok st' => v2FixLoop now rest st' (fixed + 1)
    else
      v2FixLoop now rest st fixed

/-- `FirebaseJobService.fixDataCountMismatches` (firebaseService.ts lines
672-698): finds the mismatched documents once, repairs each in turn, and
returns how many it fixed. -/
def fixDataCountMismatches (now : Nat) (st : Store2) :
    Except Unit (Nat × Store2) := do
  let mismatches ← findDataCountMismatches st
  v2FixLoop now mismatches st 0

/-! ## General lemmas about the embedding -/

theorem lookupField_append (xs ys : List (String × Json)) (k : String) :
    lookupField (xs ++ ys) k =
      match lookupField xs k with
      | some v => some v
      | none => lookupField ys k := by
  induction xs with
  | nil => simp [lookupField]
  | cons p rest ih =>
    obtain ⟨k', v'⟩ := p
    by_cases h : k' = k <;> simp [lookupField, h, ih]

theorem lookupField_mergeFields (base over : List (String × Json)) (k : String) :
    lookupField (mergeFields base over) k =
      match lookupField over k with
      | some v => some v
      | none => lookupField base k := by
  unfold mergeFields
  rw [lookupField_append]
  induction base with
  | nil =>
    cases h : lookupField over k <;> simp [lookupField, h]
  | cons p rest ih =>
    obtain ⟨k', v'⟩ := p
    by_cases hk : k' = k
    · subst hk
      cases hov : lookupField over k' with
      | none => simp [List.filter_cons, hov, lookupField]
      | some w => simpa [List.filter_cons, hov, lookupField] using ih
    · cases hov : lookupField over k' with
      | none => simpa [List.filter_cons, hov, lookupField, hk] using ih
      | some w => simpa [List.filter_cons, hov, lookupField, hk] using ih

theorem lookupField_cleanFields_some (fs : List (String × Json)) (k : String)
    (v : Json) (hv : lookupField fs k = some v) (hnn : v ≠ .null)
    (hne : ¬(cleanUndefinedValues v = .obj [] ∨ cleanUndefinedValues v = .arr [])) :
    lookupField (cleanFields fs) k = some (cleanUndefinedValues v) := by
  induction fs with
  | nil => simp [lookupField] at hv
  | cons p rest ih =>
    obtain ⟨k', v'⟩ := p
    by_cases hk : k' = k
    · subst hk
      simp [lookupField] at hv
      subst hv
      simp [cleanFields, hnn, hne, lookupField]
    · simp [lookupField, hk] at hv
      by_cases h1 : v' = Json.null
      · simpa [cleanFields, h1] using ih hv
      · by_cases h2 : cleanUndefinedValues v' = .obj [] ∨ cleanUndefinedValues v' = .arr []
        · simpa [cleanFields, h1, h2] using ih hv
        · simpa [cleanFields, h1, h2, lookupField, hk] using ih hv

theorem cleanList_length (l : List Json) : (cleanList l).length = l.length := by
  induction l with
  | nil => simp [cleanList]
  | cons x rest ih => simp [cleanList, ih]

theorem cleanList_map (l : List Json) : cleanList l = l.map cleanUndefinedValues := by
  induction l with
  | nil => simp [cleanList]
  | cons x rest ih => simp [cleanList, ih]

/-! ## C1 — shape-detection priority of the wrapped `data` format -/

/-- Spec wording of rule 2's identifier extraction: the top-level fields
`snapshot_id`, `snapshot`, `id`, `snapshotId` are checked in that order
and the first non-empty (truthy) one wins, else no identifier. -/
def specRule2Id (fs : List (String × Json)) : Json :=
  (jsOr (lookupField fs "snapshot_id")
    (jsOr (lookupField fs "snapshot")
      (jsOr (lookupField fs "id")
        (jsOr (lookupField fs "snapshotId") (some .null))))).getD .null

/-- C1: for every payload that is an object whose `data` field is an
array, the detector returns that array verbatim together with the
identifier extracted from the top-level fields in the order
`snapshot_id`, `snapshot`, `id`, `snapshotId` (first truthy wins) —
whatever other fields, in particular a `results` array, the payload
carries, so priority rule 2 beats rule 4. -/
theorem detect_data_field_wins (now : Nat) (fs : List (String × Json))
    (l : List Json) (h : lookupField fs "data" = some (.arr l)) :
    extractJobDataFromPayload now (.obj fs) = .ok (l, specRule2Id fs) := by
  simp [extractJobDataFromPayload, member, h, extractSnapshotId, specRule2Id,
    Bind.bind, Except.bind, pure, Except.pure]

/-- C1 witness: `detect {data: [...], snapshot_id: "X", results: [...]}`
returns the `data` array and `"X"`. -/
theorem detect_data_field_wins_witness :
    extractJobDataFromPayload 0
      (.obj [("data", .arr [.obj [("a", .num 1)]]),
             ("snapshot_id", .str "X"),
             ("results", .arr [.num 2])])
      = .ok ([.obj [("a", .num 1)]], .str "X") :=
  detect_data_field_wins 0 _ _ rfl

/-! ## C2 — unmatched payloads are rejected with nothing persisted -/

/-- C2 counterexample: the JSON payload `null` matches no shape, yet the
receiver answers 500 (the detector's TypeError reaches the catch-all),
not a 4xx client error; nothing is persisted either way. -/
theorem webhook_null_payload_responds_500 :
    (processWebhook ⟨false, false, false⟩ 0 .null
        { linkedin := [], indeed := [], nextId := 0 }).status = 500 ∧
    (processWebhook ⟨false, false, false⟩ 0 .null
        { linkedin := [], indeed := [], nextId := 0 }).store
      = { linkedin := [], indeed := [], nextId := 0 } ∧
    (processWebhook ⟨false, false, false⟩ 0 .null
        { linkedin := [], indeed := [], nextId := 0 }).files = [] :=
  ⟨rfl, rfl, rfl⟩

/-- C2 (amended): a delivery on which shape detection completes without a
recoverable identifier gets a 400 with nothing persisted — no store
write, no local file; a delivery on which the detector itself throws
(e.g. the payload `null`) gets a 500, also with nothing persisted. -/
theorem webhook_unmatched_nothing_persisted (fb : FbFlags) (now : Nat)
    (payload : Json) (st : Store) :
    (∀ d sid, extractJobDataFromPayload now payload = .ok (d, sid) →
      truthy sid = false →
      processWebhook fb now payload st =
        { status := 400, success := none, fbSaved := false, store := st, files := [] })
    ∧ (extractJobDataFromPayload now payload = .error () →
      processWebhook fb now payload st =
        { status := 500, success := some false, fbSaved := false, store := st, files := [] }) := by
  constructor
  · intro d sid hex hsid
    simp [processWebhook, hex, hsid]
  · intro hex
    simp [processWebhook, hex]

/-- C2 witness: the empty-object payload gets a 400 and persists
nothing. -/
theorem webhook_unmatched_nothing_persisted_witness :
    processWebhook ⟨false, false, false⟩ 0 (.obj [])
        { linkedin := [], indeed := [], nextId := 0 } =
      { status := 400, success := none, fbSaved := false,
        store := { linkedin := [], indeed := [], nextId := 0 }, files := [] } :=
  (webhook_unmatched_nothing_persisted ⟨false, false, false⟩ 0 (.obj [])
    { linkedin := [], indeed := [], nextId := 0 }).1 [] .null rfl rfl

/-! ## C3 — webhook authorization -/

/-- Spec wording of the four accepted credential locations: the
`Authorization: Bearer` form, the raw `Authorization` header, the
vendor-specific header (`x-brightdata-auth`, falling back to
`brightdata-auth`) and the `auth_header` URL query parameter. -/
def secretMatchesSomeLocation (s : String) (rq : AuthInput) : Bool :=
  strOr rq.authorization "" == "Bearer " ++ s
  || strOr rq.authorization "" == s
  || strOr rq.xBrightdataAuth (strOr rq.brightdataAuth "") == s
  || strOr rq.authQueryParam "" == s

/-- C3: with a secret configured (the first truthy of `WEBHOOK_SECRET`
and `BRIGHTDATA_API_KEY`), a request is rejected with 401 exactly when
the supplied credentials match the secret in none of the four accepted
locations; with no secret configured, every request is accepted. -/
theorem webhook_auth_iff (ws api : Option String) (rq : AuthInput) :
    (truthyS (if truthyS ws then ws else api) = false →
      webhookUnauthorized ws api rq = false)
    ∧ (∀ s, (if truthyS ws then ws else api) = some s → s ≠ "" →
      (webhookUnauthorized ws api rq = true ↔
        secretMatchesSomeLocation s rq = false)) := by
  constructor
  · intro h
    simp [webhookUnauthorized, h]
  · intro s hs hne
    simp only [webhookUnauthorized, hs]
    simp [truthyS, hne, secretMatchesSomeLocation]

/-- C3 witness: with secret `"sec"` configured, a request carrying the
wrong bearer token and nothing else is rejected; instantiating the
theorem's iff at concrete values. -/
theorem webhook_auth_iff_witness :
    webhookUnauthorized (some "sec") none
      { authorization := some "Bearer nope", xBrightdataAuth := none,
        brightdataAuth := none, authQueryParam := none } = true ∧
    webhookUnauthorized none none
      { authorization := some "Bearer nope", xBrightdataAuth := none,
        brightdataAuth := none, authQueryParam := none } = false := by
  constructor
  · exact ((webhook_auth_iff (some "sec") none _).2 "sec" rfl (by decide)).mpr (by decide)
  · exact (webhook_auth_iff none none _).1 rfl

/-! ## C4 — persistence failure does not fail the delivery -/

/-- C4: on any delivery with a recoverable identifier, when every
document-store save/update rejects (flags set) while the local backup
succeeds, the receiver still answers 200 with top-level `success: true`;
the store failure shows up only as `firebase.saved = false` in the body.
The local webhook backup file is on disk and the store is untouched. -/
theorem persistence_failure_still_success (g : Bool) (now : Nat) (payload : Json)
    (st : Store) (d : List Json) (sid : Json)
    (hex : extractJobDataFromPayload now payload = .ok (d, sid))
    (hsid : truthy sid = true)
    (hbuild : d ≠ [] → (buildJobData now payload sid d).isOk = true) :
    (processWebhook ⟨g, true, true⟩ now payload st).status = 200 ∧
    (processWebhook ⟨g, true, true⟩ now payload st).success = some true ∧
    (processWebhook ⟨g, true, true⟩ now payload st).fbSaved = false ∧
    (processWebhook ⟨g, true, true⟩ now payload st).files ≠ [] ∧
    (processWebhook ⟨g, true, true⟩ now payload st).store = st := by
  unfold processWebhook
  rw [hex]
  cases d with
  | nil =>
    cases hle : lookupExistingJob ⟨g, true, true⟩ sid st with
    | none => simp [hsid, hle]
    | some p =>
      obtain ⟨docId, doc⟩ := p
      cases hst : jsOr (jsGet payload "status") (jsGet doc "status") with
      | none => simp [hsid, hle, hst]
      | some sv => simp [hsid, hle, hst]
  | cons x rest =>
    cases hjd : buildJobData now payload sid (x :: rest) with
    | error e =>
      rw [hjd] at hbuild
      simp [Except.isOk, Except.toBool] at hbuild
    | ok jd =>
      cases hle : lookupExistingJob ⟨g, true, true⟩ sid st with
      | none => simp [hsid, hjd, hle]
      | some p =>
        obtain ⟨docId, doc⟩ := p
        simp [hsid, hjd, hle]

/-- The payload of the C4 witness: one LinkedIn-classified record under
`data` with a top-level `snapshot_id`. -/
def c4Payload : Json :=
  .obj [("data", .arr [.obj [("job_url", .str "https://linkedin.com/jobs/1")]]),
        ("snapshot_id", .str "s1")]

/-- C4 witness: a concrete delivery against an empty store with the
store failing is still a 200/`success: true` with `firebase.saved`
false. -/
theorem persistence_failure_still_success_witness :
    (processWebhook ⟨false, true, true⟩ 5 c4Payload
        { linkedin := [], indeed := [], nextId := 0 }).status = 200 ∧
    (processWebhook ⟨false, true, true⟩ 5 c4Payload
        { linkedin := [], indeed := [], nextId := 0 }).success = some true ∧
    (processWebhook ⟨false, true, true⟩ 5 c4Payload
        { linkedin := [], indeed := [], nextId := 0 }).fbSaved = false ∧
    (processWebhook ⟨false, true, true⟩ 5 c4Payload
        { linkedin := [], indeed := [], nextId := 0 }).files ≠ [] ∧
    (processWebhook ⟨false, true, true⟩ 5 c4Payload
        { linkedin := [], indeed := [], nextId := 0 }).store
      = { linkedin := [], indeed := [], nextId := 0 } :=
  persistence_failure_still_success false 5 c4Payload
    { linkedin := [], indeed := [], nextId := 0 }
    [.obj [("job_url", .str "https://linkedin.com/jobs/1")]] (.str "s1")
    rfl rfl (fun _ => by rfl)

/-! ## C6 — bare-array detection -/

/-- `extractSnapshotId` never throws on a defined non-null argument. -/
theorem extractSnapshotId_isOk (j : Json) (h : j ≠ .null) :
    ∃ v, extractSnapshotId (some j) = .ok v := by
  cases j <;>
    simp [extractSnapshotId, member, Bind.bind, Except.bind, pure, Except.pure] at h ⊢

/-- C6 counterexample: on the bare one-element array `[{}]` — whose first
element has no `input` field — the detector neither returns the records
nor synthesizes an identifier: `extractSnapshotId(firstItem.input)` is a
TypeError on `undefined`, so the whole detection throws. -/
theorem bare_array_missing_input_throws :
    extractJobDataFromPayload 0 (.arr [.obj []]) = .error () := rfl

/-- C6 (amended): the empty bare array yields zero records and no
identifier (not a synthesized one); a non-empty bare array is detected —
all N records returned — only when the first element carries a non-null
`input` field, and then, when neither that `input` object nor the first
element itself yields a truthy identifier, the identifier is synthesized
with the fixed `job_` prefix (hence non-empty). -/
theorem bare_array_detection_amended :
    (∀ now : Nat, extractJobDataFromPayload now (.arr []) = .ok ([], .null)) ∧
    (∀ (now : Nat) (x : Json) (xs : List Json) (j : Json),
      jsGet x "input" = some j → j ≠ .null →
      ∃ sid, extractJobDataFromPayload now (.arr (x :: xs)) = .ok (x :: xs, sid) ∧
        (∀ s1 s2, extractSnapshotId (some j) = .ok s1 →
          extractSnapshotId (some x) = .ok s2 →
          truthy s1 = false → truthy s2 = false →
          ∃ tail, sid = .str ("job_" ++ tail))) := by
  constructor
  · intro now; rfl
  · intro now x xs j hx hj
    cases x with
    | obj fs =>
      simp only [jsGet] at hx
      obtain ⟨s1v, hs1⟩ := extractSnapshotId_isOk j hj
      by_cases h1 : truthy s1v = true
      · refine ⟨s1v, ?_, ?_⟩
        · simp [extractJobDataFromPayload, member, hx, hs1, h1,
            Bind.bind, Except.bind]
        · intro s1 s2 he1 _ ht1 _
          rw [hs1] at he1
          injection he1 with he1
          subst he1
          simp [ht1] at h1
      · replace h1 : truthy s1v = false := by
          cases hv : truthy s1v
          · rfl
          · exact absurd hv h1
        obtain ⟨s2v, hs2⟩ := extractSnapshotId_isOk (.obj fs) (by simp)
        by_cases h2 : truthy s2v = true
        · refine ⟨s2v, ?_, ?_⟩
          · simp [extractJobDataFromPayload, member, hx, hs1, h1, hs2, h2,
              Bind.bind, Except.bind]
          · intro s1 s2 _ he2 _ ht2
            rw [hs2] at he2
            injection he2 with he2
            subst he2
            simp [ht2] at h2
        · replace h2 : truthy s2v = false := by
            cases hv : truthy s2v
            · rfl
            · exact absurd hv h2
          refine ⟨.str ("job_" ++ jsToString (jsOrD (lookupField fs "job_posting_id") (.num now))), ?_, ?_⟩
          · simp [extractJobDataFromPayload, member, hx, hs1, h1, hs2, h2,
              Bind.bind, Except.bind]
          · intro s1 s2 _ _ _ _
            exact ⟨_, rfl⟩
    | null => simp [jsGet] at hx
    | bool b => simp [jsGet] at hx
    | num n => simp [jsGet] at hx
    | str s => simp [jsGet] at hx
    | arr l => simp [jsGet] at hx

/-- C6 witness: the empty array gives no identifier; a record with an
empty `input` object and a `job_posting_id` gives all records back with
the `job_`-prefixed synthesized identifier `job_7`. -/
theorem bare_array_detection_amended_witness :
    extractJobDataFromPayload 7 (.arr []) = .ok ([], .null) ∧
    extractJobDataFromPayload 7
        (.arr [.obj [("input", .obj []), ("job_posting_id", .num 7)]])
      = .ok ([.obj [("input", .obj []), ("job_posting_id", .num 7)]], .str ("job_" ++ "7")) := by
  refine ⟨bare_array_detection_amended.1 7, ?_⟩
  obtain ⟨sid, heq, hsyn⟩ :=
    bare_array_detection_amended.2 7 (.obj [("input", .obj []), ("job_posting_id", .num 7)]) []
      (.obj []) rfl (by decide)
  obtain ⟨tail, -⟩ := hsyn .null .null rfl rfl rfl rfl
  rfl

/-! ## C7 — status-only detection -/

/-- C7 counterexample: `{status: "failed", snapshot: "Z"}` carries the
recognized identifier field `snapshot`, but the status-only guard checks
only `snapshot_id` and `id`, so no shape matches and no identifier is
returned (the delivery would be rejected 400), contradicting the claim
that any recognized identifier field works. -/
theorem status_with_snapshot_field_unmatched :
    extractJobDataFromPayload 0 (.obj [("status", .str "failed"), ("snapshot", .str "Z")])
      = .ok ([], .null) := rfl

/-- C7 (amended): for an object payload with no `data`, `results` or
record-shaped fields, a truthy `status` and a truthy `snapshot_id` or
`id` specifically (not any of the four recognized identifier fields),
the detector returns zero records and the identifier extracted by the
full `snapshot_id`/`snapshot`/`id`/`snapshotId` chain. -/
theorem status_only_detection_amended (now : Nat) (fs : List (String × Json))
    (hdata : lookupField fs "data" = none)
    (hres : lookupField fs "results" = none)
    (hjt : lookupField fs "job_title" = none)
    (hco : lookupField fs "company" = none)
    (hju : lookupField fs "job_url" = none)
    (hst : truthyO (lookupField fs "status") = true)
    (hid : (truthyO (lookupField fs "snapshot_id") || truthyO (lookupField fs "id")) = true) :
    extractJobDataFromPayload now (.obj fs) = .ok ([], specRule2Id fs) := by
  simp [extractJobDataFromPayload, member, Bind.bind, Except.bind, pure, Except.pure,
    hdata, hres, hjt, hco, hju, hst, hid, truthyO, extractSnapshotId, specRule2Id]
  intro h
  obtain ⟨h1, h2⟩ := h hst
  simp only [truthyO] at hid
  rw [h1, h2] at hid
  cases hid

/-- C7 witness: `detect {status: "failed", id: "Y"}` gives zero records
and identifier `"Y"`. -/
theorem status_only_detection_amended_witness :
    extractJobDataFromPayload 0 (.obj [("status", .str "failed"), ("id", .str "Y")])
      = .ok ([], .str "Y") :=
  status_only_detection_amended 0 _ rfl rfl rfl rfl rfl rfl rfl

/-! ## C10 — unpartitioned job types can never be stored -/

/-- Peeling a successful `Except` bind. -/
theorem exceptBind_ok {α β : Type} {e : Except Unit α} {f : α → Except Unit β}
    {t : β} (h : e >>= f = .ok t) : ∃ b, e = .ok b ∧ f b = .ok t := by
  cases e with
  | error e => exact absurd h (by simp [Bind.bind, Except.bind])
  | ok b => exact ⟨b, rfl, by simpa [Bind.bind, Except.bind] using h⟩

/-- Peeling a successful boolean branch. -/
theorem exceptIte_ok {α : Type} {c : Bool} {A B : Except Unit α} {t : α}
    (h : (if c = true then A else B) = .ok t) :
    (c = true ∧ A = .ok t) ∨ (c = false ∧ B = .ok t) := by
  cases c <;> simp_all

/-- The persistence gateway has partitions exactly for string job types
whose lowering is one of the four recognized names. -/
theorem getCollection_partitions (v : Option Json) :
    (getCollection v).isOk = true ↔
      ∃ s, v = some (.str s) ∧
        (jsToLowerCase s = "linkedin_jobs" ∨ jsToLowerCase s = "linkedin" ∨
         jsToLowerCase s = "indeed_jobs" ∨ jsToLowerCase s = "indeed") := by
  cases v with
  | none => simp [getCollection, Except.isOk, Except.toBool]
  | some j =>
    cases j with
    | str s =>
      by_cases h1 : jsToLowerCase s = "linkedin_jobs" ∨ jsToLowerCase s = "linkedin"
      · simp [getCollection, h1, Except.isOk, Except.toBool]
        try tauto
      · by_cases h2 : jsToLowerCase s = "indeed_jobs" ∨ jsToLowerCase s = "indeed"
        · simp [getCollection, h1, h2, Except.isOk, Except.toBool]
          try tauto
        · simp [getCollection, h1, h2, Except.isOk, Except.toBool]
          try tauto
    | null => simp [getCollection, Except.isOk, Except.toBool]
    | bool b => simp [getCollection, Except.isOk, Except.toBool]
    | num n => simp [getCollection, Except.isOk, Except.toBool]
    | arr l => simp [getCollection, Except.isOk, Except.toBool]
    | obj fs => simp [getCollection, Except.isOk, Except.toBool]

set_option maxHeartbeats 1000000 in
/-- The classifier can only return the five fixed category names. -/
theorem determineJobType_range (d : List Json) (t : String)
    (h : determineJobType d = .ok t) :
    t = "indeed_jobs" ∨ t = "linkedin_jobs" ∨ t = "linkedin_company" ∨
      t = "job_search" ∨ t = "unknown" := by
  rcases d with _ | ⟨fi, rest⟩
  · simp [determineJobType] at h
    simp [← h]
  · simp only [determineJobType] at h
    repeat'
      first
        | (injection h with h; subst h; simp)
        | (cases h)
        | (obtain ⟨b, -, h⟩ := exceptBind_ok h)
        | (rcases exceptIte_ok h with ⟨-, h⟩ | ⟨-, h⟩)

/-- The `jobType` entry of the built `docData` is the caller's `jobType`
with the `'unknown'` fallback. -/
theorem lookupField_saveDocFields_jobType (now : Nat) (jd : Json) :
    lookupField (saveDocFields now jd) "jobType"
      = some (jsOrD (jsGet jd "jobType") (.str "unknown")) := by
  cases hsn : jsGet jd "snapshotId" <;>
    simp [saveDocFields, optEntry, hsn, lookupField]

/-- `saveJobData` throws whenever the effective `jobType` has no
partition. -/
theorem saveJobData_type_error (now : Nat) (jd : Json) (st : Store) (t : String)
    (hjt : jsOrD (jsGet jd "jobType") (.str "unknown") = .str t)
    (hbad : getCollection (some (.str t)) = .error ()) :
    saveJobData now jd st = .error () := by
  have hlk := lookupField_saveDocFields_jobType now jd
  rw [hjt] at hlk
  have hcl : lookupField (cleanFields (saveDocFields now jd)) "jobType"
      = some (.str t) := by
    have h := lookupField_cleanFields_some (saveDocFields now jd) "jobType" (.str t)
      hlk (by simp) (by simp [cleanUndefinedValues])
    simpa [cleanUndefinedValues] using h
  unfold saveJobData
  simp [Bind.bind, Except.bind, cleanUndefinedValues, jsGet, hcl, hbad]

/-- C10: the gateway partitions exist exactly for the job types whose
lowercase form is `linkedin_jobs`/`linkedin`/`indeed_jobs`/`indeed`; the
classifier returns one of five names; and for the three returned names
with no partition (`linkedin_company`, `job_search`, `unknown`) the
handler-built job data can never be stored — `saveJobData` always
throws, leaving the delivery local-only. -/
theorem unpartitioned_categories_cannot_be_stored :
    (∀ v : Option Json, (getCollection v).isOk = true ↔
      ∃ s, v = some (.str s) ∧
        (jsToLowerCase s = "linkedin_jobs" ∨ jsToLowerCase s = "linkedin" ∨
         jsToLowerCase s = "indeed_jobs" ∨ jsToLowerCase s = "indeed")) ∧
    (∀ (d : List Json) (t : String), determineJobType d = .ok t →
      t = "indeed_jobs" ∨ t = "linkedin_jobs" ∨ t = "linkedin_company" ∨
        t = "job_search" ∨ t = "unknown") ∧
    (∀ t : String, (t = "linkedin_company" ∨ t = "job_search" ∨ t = "unknown") →
      ∀ (now : Nat) (payload sid : Json) (d : List Json) (jd : Json) (st : Store),
        determineJobType d = .ok t →
        buildJobData now payload sid d = .ok jd →
        saveJobData now jd st = .error ()) := by
  refine ⟨getCollection_partitions, determineJobType_range, ?_⟩
  intro t ht now payload sid d jd st hdet hjd
  unfold buildJobData at hjd
  rw [hdet] at hjd
  simp only [Bind.bind, Except.bind] at hjd
  cases hsp : extractSearchParams d t with
  | error e => rw [hsp] at hjd; cases hjd
  | ok sp =>
    rw [hsp] at hjd
    injection hjd with hjd
    subst hjd
    refine saveJobData_type_error now _ st t ?_ ?_ <;>
      rcases ht with h | h | h <;> subst h <;> rfl

/-- C10 witness: `LinkedIn` (case-insensitively) has a partition; a
`job_title`-only record classifies as `job_search`; and the job data the
handler builds for it cannot be saved. -/
theorem unpartitioned_categories_cannot_be_stored_witness :
    (getCollection (some (.str "LinkedIn"))).isOk = true ∧
    determineJobType [.obj [("job_title", .str "x")]] = .ok "job_search" ∧
    saveJobData 0
      (.obj [("snapshotId", .str "s"),
             ("status", .str "completed"),
             ("jobType", .str "job_search"),
             ("data", .arr [.obj [("job_title", .str "x")]]),
             ("metadata", .obj
               [("triggeredAt", .str "time@0"),
                ("completedAt", .str "time@0"),
                ("dataCount", .num 1),
                ("webhookPayload", .obj []),
                ("processedAt", .str "time@0")]),
             ("searchParams", .obj [])])
      { linkedin := [], indeed := [], nextId := 0 } = .error () := by
  refine ⟨?_, rfl, ?_⟩
  · exact (unpartitioned_categories_cannot_be_stored.1 (some (.str "LinkedIn"))).mpr
      ⟨"LinkedIn", rfl, by decide⟩
  · exact unpartitioned_categories_cannot_be_stored.2.2 "job_search"
      (Or.inr (Or.inl rfl)) 0 (.obj []) (.str "s") [.obj [("job_title", .str "x")]]
      _ { linkedin := [], indeed := [], nextId := 0 } rfl rfl

/-! ## C8 — round-trip through the persistence gateway -/

/-- The `data` entry of the built `docData` is the caller's data array
(or `[]`). -/
theorem lookupField_saveDocFields_data (now : Nat) (jd : Json) :
    lookupField (saveDocFields now jd) "data"
      = some (.arr (saveDataArray jd)) := by
  cases hsn : jsGet jd "snapshotId" <;>
    simp [saveDocFields, optEntry, hsn, lookupField]

/-- The `snapshotId` entry of the built `docData` is the caller's value
when present. -/
theorem lookupField_saveDocFields_snapshotId (now : Nat) (jd : Json) (v : Json)
    (hsid : jsGet jd "snapshotId" = some v) :
    lookupField (saveDocFields now jd) "snapshotId" = some v := by
  simp [saveDocFields, optEntry, hsid, lookupField]

/-- C8 counterexample: a Job Record written with an empty `data` array
loses the `data` field entirely to the empty-value stripping, and the
subsequent `getJobBySnapshotId` read throws (its success log evaluates
`jobData.data.length` on `undefined`), so the written record cannot be
read back at all — the round-trip equality fails. -/
theorem roundtrip_empty_data_read_fails :
    ((saveJobData 3
        (.obj [("snapshotId", .str "s"), ("jobType", .str "linkedin_jobs"),
               ("data", .arr [])])
        { linkedin := [], indeed := [], nextId := 0 }).bind
      (fun p => getJobBySnapshotId (.str "s") p.2)) = .error () := rfl

/-- C8 (amended): when the written `data` array is non-empty, a record
saved into an empty store and read back by snapshot id comes back as the
same document, whose `data` list is the written list element-for-element
with the recursive empty-value stripping applied (same length, cleaned
elements). -/
theorem roundtrip_preserves_cleaned_data (now : Nat) (jd : Json)
    (l : List Json) (s : String)
    (hdata : jsGet jd "data" = some (.arr l)) (hne : l ≠ [])
    (hsid : jsGet jd "snapshotId" = some (.str s))
    (i : Nat) (st1 : Store)
    (hsave : saveJobData now jd { linkedin := [], indeed := [], nextId := 0 }
      = .ok (i, st1))
    (r : Option (Nat × Json))
    (hread : getJobBySnapshotId (.str s) st1 = .ok r) :
    ∃ doc, r = some (i, doc) ∧
      jsGet doc "data" = some (.arr (l.map cleanUndefinedValues)) ∧
      (l.map cleanUndefinedValues).length = l.length := by
  have harr : saveDataArray jd = l := by simp [saveDataArray, hdata]
  have hclean_data : lookupField (cleanFields (saveDocFields now jd)) "data"
      = some (.arr (cleanList l)) := by
    have hlk := lookupField_saveDocFields_data now jd
    rw [harr] at hlk
    have h := lookupField_cleanFields_some (saveDocFields now jd) "data" (.arr l)
      hlk (by simp) ?_
    · simpa [cleanUndefinedValues] using h
    · simp [cleanUndefinedValues]
      intro hempty
      exact hne (by
        have := cleanList_length l
        rw [hempty] at this
        exact List.length_eq_zero.mp this.symm)
  have hclean_sid : lookupField (cleanFields (saveDocFields now jd)) "snapshotId"
      = some (.str s) := by
    have hlk := lookupField_saveDocFields_snapshotId now jd (.str s) hsid
    have h := lookupField_cleanFields_some (saveDocFields now jd) "snapshotId" (.str s)
      hlk (by simp) (by simp [cleanUndefinedValues])
    simpa [cleanUndefinedValues] using h
  unfold saveJobData at hsave
  cases hcol : getCollection
      (jsGet (cleanUndefinedValues (.obj (saveDocFields now jd))) "jobType") with
  | error e =>
    simp [hcol, Bind.bind, Except.bind] at hsave
  | ok k =>
    simp only [hcol, Bind.bind, Except.bind, Except.ok.injEq, Prod.mk.injEq] at hsave
    cases k with
    | linkedin =>
      obtain ⟨hi, hst⟩ := hsave
      simp only [getJobBySnapshotId, findBySnapshot, List.find?, cleanUndefinedValues,
        jsGet, hclean_sid, beq_self_eq_true] at hread
      cases hro : jobReadOk (Json.obj (cleanFields (saveDocFields now jd))) with
      | false => rw [hro] at hread; cases hread
      | true =>
        rw [hro] at hread
        simp only [if_true, Except.ok.injEq] at hread
        refine ⟨Json.obj (cleanFields (saveDocFields now jd)), hread.symm, ?_, by simp⟩
        rw [jsGet, hclean_data, cleanList_map]
    | indeed =>
      obtain ⟨hi, hst⟩ := hsave
      simp only [getJobBySnapshotId, findBySnapshot, List.find?, cleanUndefinedValues,
        jsGet, hclean_sid, beq_self_eq_true] at hread
      cases hro : jobReadOk (Json.obj (cleanFields (saveDocFields now jd))) with
      | false => rw [hro] at hread; cases hread
      | true =>
        rw [hro] at hread
        simp only [if_true, Except.ok.injEq] at hread
        refine ⟨Json.obj (cleanFields (saveDocFields now jd)), hread.symm, ?_, by simp⟩
        rw [jsGet, hclean_data, cleanList_map]

/-- C8 witness: a record with one element whose `a: null` field is
stripped on write comes back with the `data` list of the same length,
the element cleaned, and the `null` field gone. -/
theorem roundtrip_preserves_cleaned_data_witness :
    ((saveJobData 3
        (.obj [("snapshotId", .str "s"), ("jobType", .str "linkedin_jobs"),
               ("data", .arr [.obj [("a", .null), ("b", .num 2)]])])
        { linkedin := [], indeed := [], nextId := 0 }).bind
      (fun p => (getJobBySnapshotId (.str "s") p.2).map
        (fun r => r.map (fun q => (q.1, jsGet q.2 "data")))))
      = .ok (some (0, some (.arr [.obj [("b", .num 2)]]))) := by
  obtain ⟨doc, -, -, -⟩ := roundtrip_preserves_cleaned_data 3
    (.obj [("snapshotId", .str "s"), ("jobType", .str "linkedin_jobs"),
           ("data", .arr [.obj [("a", .null), ("b", .num 2)]])])
    [.obj [("a", .null), ("b", .num 2)]] "s" rfl (by decide) rfl 0 _ rfl _ rfl
  rfl

/-! ## C5 — an update keeps the existing record's category -/

/-- Document lookup by id within one partition. -/
def docById (docs : List (Nat × Json)) (i : Nat) : Option Json :=
  (docs.find? (fun p => p.1 == i)).map (fun p => p.2)

/-- The partition an update leaves untouched. -/
def otherColl : CollKind → CollKind
  | .linkedin => .indeed
  | .indeed => .linkedin

theorem docById_updateDocs_self (docs : List (Nat × Json)) (i : Nat)
    (upd : List (String × Json)) (doc : Json)
    (h : docById docs i = some doc) :
    docById (updateDocs docs i upd)
      i = some (Json.obj (mergeFields (spreadFields (some doc)) upd)) := by
  induction docs with
  | nil => simp [docById, List.find?] at h
  | cons p rest ih =>
    obtain ⟨a, d⟩ := p
    by_cases ha : a = i
    · subst ha
      simp [docById, List.find?] at h
      subst h
      simp [docById, updateDocs, List.find?]
    · have hab : (a == i) = false := by simp [ha]
      simp only [docById, List.find?, hab] at h
      simpa [docById, updateDocs, List.find?, hab, ha] using
        ih (by simpa [docById] using h)

theorem updateJobData_data_spec (now : Nat) (docId : Nat) (updateData : Json)
    (jobType : Option Json) (st : Store) (k : CollKind) (doc₀ : Json)
    (hcoll : getCollection jobType = .ok k)
    (hfind : docById (collOf st k) docId = some doc₀) :
    ∃ st', updateJobData now docId updateData jobType st = .ok st' ∧
      collOf st' (otherColl k) = collOf st (otherColl k) ∧
      docById (collOf st' k) docId
        = some (.obj (mergeFields (spreadFields (some doc₀))
            (updateFieldsOf now updateData))) := by
  have hsome : ((collOf st k).find? (fun p => p.1 == docId)).isNone = false := by
    simp only [docById] at hfind
    cases hf : (collOf st k).find? (fun p => p.1 == docId) with
    | none => rw [hf] at hfind; simp at hfind
    | some q => simp [hf]
  cases k with
  | linkedin =>
    have hupd : updateJobData now docId updateData jobType st
        = .ok { st with
            linkedin := updateDocs st.linkedin docId (updateFieldsOf now updateData) } := by
      unfold updateJobData
      simp [hcoll, Bind.bind, Except.bind, collOf] at hsome ⊢
      simp [hsome]
    refine ⟨_, hupd, by simp [otherColl, collOf], ?_⟩
    simpa [collOf] using
      docById_updateDocs_self st.linkedin docId (updateFieldsOf now updateData) doc₀
        (by simpa [collOf] using hfind)
  | indeed =>
    have hupd : updateJobData now docId updateData jobType st
        = .ok { st with
            indeed := updateDocs st.indeed docId (updateFieldsOf now updateData) } := by
      unfold updateJobData
      simp [hcoll, Bind.bind, Except.bind, collOf] at hsome ⊢
      simp [hsome]
    refine ⟨_, hupd, by simp [otherColl, collOf], ?_⟩
    simpa [collOf] using
      docById_updateDocs_self st.indeed docId (updateFieldsOf now updateData) doc₀
        (by simpa [collOf] using hfind)

/-- Spread of a defined value looks up like plain member access. -/
theorem lookup_spread_eq_jsGet (v : Json) (f : String) :
    lookupField (spreadFields (some v)) f = jsGet v f := by
  cases v <;> simp [spreadFields, jsGet, lookupField]

/-- The handler's update object never carries a `jobType` entry. -/
theorem updateFieldsOf_jobType (now : Nat) (sv : Json) (l : List Json) (mv : Json) :
    lookupField (updateFieldsOf now
      (.obj [("status", sv), ("data", .arr l), ("metadata", mv)])) "jobType" = none := by
  simp [updateFieldsOf, setField, lookupField_mergeFields, jsGet, lookupField, spreadFields]

/-- The `status` the update writes. -/
theorem updateFieldsOf_status (now : Nat) (sv : Json) (l : List Json) (mv : Json) :
    lookupField (updateFieldsOf now
      (.obj [("status", sv), ("data", .arr l), ("metadata", mv)])) "status" = some sv := by
  simp [updateFieldsOf, setField, lookupField_mergeFields, jsGet, lookupField, spreadFields]

/-- The `data` the update writes. -/
theorem updateFieldsOf_data (now : Nat) (sv : Json) (l : List Json) (mv : Json) :
    lookupField (updateFieldsOf now
      (.obj [("status", sv), ("data", .arr l), ("metadata", mv)])) "data"
      = some (.arr l) := by
  simp [updateFieldsOf, setField, lookupField_mergeFields, jsGet, lookupField, spreadFields]

/-- The `metadata` the update writes: the caller's metadata with
`dataCount` forced to the new array length. -/
theorem updateFieldsOf_metadata (now : Nat) (sv : Json) (l : List Json) (mv : Json) :
    lookupField (updateFieldsOf now
      (.obj [("status", sv), ("data", .arr l), ("metadata", mv)])) "metadata"
      = some (.obj (mergeFields (spreadFields (some mv))
          [("dataCount", .num l.length)])) := by
  simp [updateFieldsOf, setField, lookupField_mergeFields, jsGet, lookupField, spreadFields]

/-- C5: when a delivery with non-empty records finds an existing record,
the merge-update runs in the partition resolved from the existing
record's `jobType` — whatever category the new records would classify as
— and the updated document keeps its `jobType`, gets `status:
"completed"`, the delivered records as `data`, `metadata.dataCount`
equal to the new length and a refreshed completion timestamp; the other
partition is untouched. -/
theorem update_preserves_existing_job_type
    (now : Nat) (payload : Json) (st : Store) (d : List Json) (sid : Json)
    (docId : Nat) (doc doc₀ : Json) (k : CollKind)
    (hex : extractJobDataFromPayload now payload = .ok (d, sid))
    (hsid : truthy sid = true)
    (hd : d ≠ [])
    (hbuild : (buildJobData now payload sid d).isOk = true)
    (hget : getJobBySnapshotId sid st = .ok (some (docId, doc)))
    (hcoll : getCollection (jsGet doc "jobType") = .ok k)
    (hfind : docById (collOf st k) docId = some doc₀) :
    (processWebhook ⟨false, false, false⟩ now payload st).status = 200 ∧
    (processWebhook ⟨false, false, false⟩ now payload st).fbSaved = true ∧
    collOf (processWebhook ⟨false, false, false⟩ now payload st).store (otherColl k)
      = collOf st (otherColl k) ∧
    ∃ doc', docById
        (collOf (processWebhook ⟨false, false, false⟩ now payload st).store k) docId
        = some doc' ∧
      jsGet doc' "jobType" = jsGet doc₀ "jobType" ∧
      jsGet doc' "status" = some (.str "completed") ∧
      jsGet doc' "data" = some (.arr d) ∧
      optMember (jsGet doc' "metadata") "dataCount" = some (.num d.length) ∧
      optMember (jsGet doc' "metadata") "completedAt"
        = some (.str (formatTimestamp now)) := by
  cases d with
  | nil => exact absurd rfl hd
  | cons x rest =>
    cases hjd : buildJobData now payload sid (x :: rest) with
    | error e =>
      rw [hjd] at hbuild
      simp [Except.isOk, Except.toBool] at hbuild
    | ok jd =>
      have hle : lookupExistingJob ⟨false, false, false⟩ sid st = some (docId, doc) := by
        simp [lookupExistingJob, hget]
      obtain ⟨st', hupd, hother, hdoc⟩ := updateJobData_data_spec now docId
        (Json.obj
          [("status", .str "completed"),
           ("data", .arr (x :: rest)),
           ("metadata", .obj (mergeFields (spreadFields (jsGet doc "metadata"))
              [("completedAt", .str (formatTimestamp now)),
               ("dataCount", .num (x :: rest).length),
               ("webhookPayload", payload),
               ("processedAt", .str (formatTimestamp now))]))])
        (jsGet doc "jobType") st k doc₀ hcoll hfind
      simp only [List.length_cons, Nat.cast_add, Nat.cast_one] at hupd hdoc
      have hrun : processWebhook ⟨false, false, false⟩ now payload st
          = { status := 200, success := some true, fbSaved := true, store := st',
              files := [⟨"webhook_" ++ jsToString sid ++ "_" ++ toString now ++ ".json", payload⟩,
                        ⟨"data_" ++ jsToString sid ++ "_" ++ toString now ++ ".json",
                         .arr (x :: rest)⟩] } := by
        unfold processWebhook
        rw [hex]
        simp [hsid, hjd, hle, hupd]
      rw [hrun]
      refine ⟨rfl, rfl, hother, ?_⟩
      refine ⟨_, hdoc, ?_, ?_, ?_, ?_, ?_⟩
      · simp only [jsGet, lookupField_mergeFields, updateFieldsOf_jobType]
        exact (lookup_spread_eq_jsGet doc₀ "jobType").trans (by simp [jsGet])
      · simp [jsGet, lookupField_mergeFields, updateFieldsOf_status]
      · simp [jsGet, lookupField_mergeFields, updateFieldsOf_data]
      · simp [jsGet, lookupField_mergeFields, updateFieldsOf_metadata, optMember,
          lookupField]
      · simp [jsGet, lookupField_mergeFields, updateFieldsOf_metadata, optMember,
          lookupField, spreadFields]

/-- C5 witness: a store holding a `linkedin_jobs` record for `s1` gets a
delivery whose records would classify as Indeed; the update still lands
on the LinkedIn record, leaves `jobType` as `linkedin_jobs`, sets
`status` to completed, replaces `data` and fixes `dataCount`. -/
theorem update_preserves_existing_job_type_witness :
    (processWebhook ⟨false, false, false⟩ 9
        (.obj [("data", .arr [.obj [("url", .str "https://indeed.com/a")]]),
               ("snapshot_id", .str "s1")])
        { linkedin := [(0, .obj [("snapshotId", .str "s1"),
                                 ("jobType", .str "linkedin_jobs"),
                                 ("status", .str "triggered"),
                                 ("data", .arr []),
                                 ("metadata", .obj [("dataCount", .num 0)])])],
          indeed := [], nextId := 1 }).status = 200 ∧
    (processWebhook ⟨false, false, false⟩ 9
        (.obj [("data", .arr [.obj [("url", .str "https://indeed.com/a")]]),
               ("snapshot_id", .str "s1")])
        { linkedin := [(0, .obj [("snapshotId", .str "s1"),
                                 ("jobType", .str "linkedin_jobs"),
                                 ("status", .str "triggered"),
                                 ("data", .arr []),
                                 ("metadata", .obj [("dataCount", .num 0)])])],
          indeed := [], nextId := 1 }).fbSaved = true ∧
    (docById (collOf (processWebhook ⟨false, false, false⟩ 9
        (.obj [("data", .arr [.obj [("url", .str "https://indeed.com/a")]]),
               ("snapshot_id", .str "s1")])
        { linkedin := [(0, .obj [("snapshotId", .str "s1"),
                                 ("jobType", .str "linkedin_jobs"),
                                 ("status", .str "triggered"),
                                 ("data", .arr []),
                                 ("metadata", .obj [("dataCount", .num 0)])])],
          indeed := [], nextId := 1 }).store .linkedin) 0).map
      (fun doc' => (jsGet doc' "jobType", jsGet doc' "status", jsGet doc' "data",
                    optMember (jsGet doc' "metadata") "dataCount"))
      = some (some (.str "linkedin_jobs"), some (.str "completed"),
              some (.arr [.obj [("url", .str "https://indeed.com/a")]]),
              some (.num 1)) := by
  obtain ⟨h200, hsav, -, -⟩ := update_preserves_existing_job_type 9
    (.obj [("data", .arr [.obj [("url", .str "https://indeed.com/a")]]),
           ("snapshot_id", .str "s1")])
    { linkedin := [(0, .obj [("snapshotId", .str "s1"),
                             ("jobType", .str "linkedin_jobs"),
                             ("status", .str "triggered"),
                             ("data", .arr []),
                             ("metadata", .obj [("dataCount", .num 0)])])],
      indeed := [], nextId := 1 }
    [.obj [("url", .str "https://indeed.com/a")]] (.str "s1") 0
    (.obj [("snapshotId", .str "s1"),
           ("jobType", .str "linkedin_jobs"),
           ("status", .str "triggered"),
           ("data", .arr []),
           ("metadata", .obj [("dataCount", .num 0)])])
    (.obj [("snapshotId", .str "s1"),
           ("jobType", .str "linkedin_jobs"),
           ("status", .str "triggered"),
           ("data", .arr []),
           ("metadata", .obj [("dataCount", .num 0)])])
    .linkedin rfl rfl (by decide) rfl rfl rfl rfl
  exact ⟨h200, hsav, by rfl⟩

/-! ## C9 — the repair operation restores the count invariant -/

/-- A well-formed stored Job Record for the repair operation: a non-empty
Firestore id, no shadowing `id` field, a `metadata` object carrying a
numeric `dataCount` (the `JobData` interface declares it `number`), and
a `data` array. -/
def WfJobDoc (k : String) (doc : Json) : Prop :=
  k ≠ "" ∧ jsGet doc "id" = none ∧
  (∃ mfs c, jsGet doc "metadata" = some (.obj mfs) ∧
    lookupField mfs "dataCount" = some (.num c)) ∧
  (∃ l, jsGet doc "data" = some (.arr l))

/-- The mismatch test as a Bool on documents (false also on a throwing
test, which well-formedness excludes). -/
def misB (doc : Json) : Bool :=
  match v2Mismatch doc with
  | .ok b => b
  | .error _ => false

/-- The document produced by one repair iteration. -/
def fixDocFor (now : Nat) (doc : Json) : Json :=
  v2ApplyUpdates doc (mergeFields (spreadFields (some (fixUpdObj now doc)))
    [("updatedAt", .str (formatTimestamp now))])

theorem v2Mismatch_wf (doc : Json) (mfs : List (String × Json)) (c : Int)
    (hm : jsGet doc "metadata" = some (.obj mfs))
    (hdc : lookupField mfs "dataCount" = some (.num c)) :
    v2Mismatch doc = .ok (decide (¬c = v2Actual doc)) := by
  by_cases hc : c = 0
  · subst hc
    simp [v2Mismatch, member, hm, hdc, jsOrD, truthy, Bind.bind, Except.bind, pure,
      Except.pure]
  · simp [v2Mismatch, member, hm, hdc, jsOrD, truthy, hc, Bind.bind, Except.bind, pure,
      Except.pure]

theorem misB_wf (doc : Json) (mfs : List (String × Json)) (c : Int)
    (hm : jsGet doc "metadata" = some (.obj mfs))
    (hdc : lookupField mfs "dataCount" = some (.num c)) :
    misB doc = decide (¬c = v2Actual doc) := by
  simp [misB, v2Mismatch_wf doc mfs c hm hdc]

theorem v2FindLoop_wf (st : Store2) (hwf : ∀ p ∈ st, WfJobDoc p.1 p.2) :
    v2FindLoop st
      = .ok ((st.filter (fun p => misB p.2)).map (fun p => (Json.str p.1, p.2))) := by
  induction st with
  | nil => rfl
  | cons p rest ih =>
    obtain ⟨k, doc⟩ := p
    obtain ⟨-, hid, ⟨mfs, c, hm, hdc⟩, -⟩ := hwf (k, doc) (by simp)
    have hmis : v2Mismatch doc = .ok (misB doc) := by
      rw [v2Mismatch_wf doc mfs c hm hdc, misB_wf doc mfs c hm hdc]
    have htail := ih (fun q hq => hwf q (by simp [hq]))
    cases hb : misB doc with
    | true =>
      simp [v2FindLoop, Bind.bind, Except.bind, hmis, hb, htail, hid,
        List.filter_cons, pure, Except.pure]
    | false =>
      simp [v2FindLoop, Bind.bind, Except.bind, hmis, hb, htail, hid,
        List.filter_cons, pure, Except.pure]

theorem updateJobDataV2_fix (now : Nat) (k : String) (doc : Json) (stc : Store2)
    (hfound : (stc.find? (fun p => p.1 == k)).isNone = false) :
    updateJobDataV2 now (.str k) (fixUpdObj now doc) stc
      = .ok (stc.map (fun p =>
          if p.1 = k then
            (p.1, v2ApplyUpdates p.2 (mergeFields (spreadFields (some (fixUpdObj now doc)))
              [("updatedAt", .str (formatTimestamp now))]))
          else p)) := by
  unfold updateJobDataV2
  have hdata : jsGet (fixUpdObj now doc) "data" = none := by
    simp [fixUpdObj, jsGet, lookupField]
  simp [hdata, hfound]

theorem mem_of_find?_isNone_false {α : Type} (xs : List (α × Json)) (q : α × Json)
    [DecidableEq α] (h : q ∈ xs) :
    (xs.find? (fun p => p.1 == q.1)).isNone = false := by
  induction xs with
  | nil => cases h
  | cons x rest ih =>
    rcases List.mem_cons.mp h with rfl | h
    · simp [List.find?]
    · by_cases hx : x.1 = q.1
      · simp [List.find?, hx]
      · have hb : (x.1 == q.1) = false := by simp [hx]
        simp only [List.find?, hb]
        exact ih h

theorem key_unique (stc : Store2) (hnd : (stc.map Prod.fst).Nodup) (k : String)
    (doc : Json) (q : String × Json)
    (h1 : (k, doc) ∈ stc) (h2 : q ∈ stc) (hq : q.1 = k) : q = (k, doc) := by
  induction stc with
  | nil => cases h1
  | cons x rest ih =>
    simp only [List.map_cons, List.nodup_cons] at hnd
    obtain ⟨hx, hrest⟩ := hnd
    rcases List.mem_cons.mp h1 with h1 | h1 <;> rcases List.mem_cons.mp h2 with h2 | h2
    · rw [h2, ← h1]
    · exfalso
      apply hx
      have hx1 : x.1 = k := by rw [← h1]
      exact List.mem_map.mpr ⟨q, h2, by rw [hq, hx1]⟩
    · exfalso
      apply hx
      have hx1 : x.1 = k := by rw [← h2]; exact hq
      exact List.mem_map.mpr ⟨(k, doc), h1, hx1.symm⟩
    · exact ih hrest h1 h2

theorem map_fst_key_preserving (stc : Store2)
    (g : (String × Json) → (String × Json)) (hg : ∀ p, (g p).1 = p.1) :
    (stc.map g).map Prod.fst = stc.map Prod.fst := by
  rw [List.map_map]
  exact List.map_congr_left (fun p _ => hg p)

theorem v2FixLoop_pending (now : Nat) (pending : List (String × Json)) :
    ∀ (stc : Store2) (fixed : Nat),
    (∀ p ∈ pending, p ∈ stc ∧ p.1 ≠ "") →
    (pending.map Prod.fst).Nodup →
    (stc.map Prod.fst).Nodup →
    v2FixLoop now (pending.map (fun p => (Json.str p.1, p.2))) stc fixed
      = .ok (fixed + pending.length,
        stc.map (fun q =>
          match pending.find? (fun p => p.1 == q.1) with
          | some p => (q.1, fixDocFor now p.2)
          | none => q)) := by
  induction pending with
  | nil =>
    intro stc fixed _ _ _
    simp [v2FixLoop, List.find?]
  | cons hd rest ih =>
    intro stc fixed hmem hpnd hsnd
    obtain ⟨k, doc⟩ := hd
    obtain ⟨hin, hk⟩ := hmem (k, doc) (by simp)
    simp only [List.map_cons, List.nodup_cons] at hpnd
    obtain ⟨hknotin, hrestnd⟩ := hpnd
    have hfound := mem_of_find?_isNone_false stc (k, doc) hin
    have hupd := updateJobDataV2_fix now k doc stc hfound
    have htr : truthy (.str k) = true := by simp [truthy, hk]
    have hstep : v2FixLoop now
        (((k, doc) :: rest).map (fun p => (Json.str p.1, p.2))) stc fixed
        = v2FixLoop now (rest.map (fun p => (Json.str p.1, p.2)))
            (stc.map (fun p =>
              if p.1 = k then
                (p.1, v2ApplyUpdates p.2
                  (mergeFields (spreadFields (some (fixUpdObj now doc)))
                    [("updatedAt", .str (formatTimestamp now))]))
              else p)) (fixed + 1) := by
      simp [v2FixLoop, htr, hupd]
    rw [hstep]
    have hsnd' : ((stc.map (fun p =>
        if p.1 = k then
          (p.1, v2ApplyUpdates p.2
            (mergeFields (spreadFields (some (fixUpdObj now doc)))
              [("updatedAt", .str (formatTimestamp now))]))
        else p)).map Prod.fst) = stc.map Prod.fst := by
      apply map_fst_key_preserving
      intro p
      by_cases hp : p.1 = k <;> simp [hp]
    have hmem' : ∀ p ∈ rest, p ∈ (stc.map (fun p =>
        if p.1 = k then
          (p.1, v2ApplyUpdates p.2
            (mergeFields (spreadFields (some (fixUpdObj now doc)))
              [("updatedAt", .str (formatTimestamp now))]))
        else p)) ∧ p.1 ≠ "" := by
      intro p hp
      obtain ⟨hpin, hpk⟩ := hmem p (by simp [hp])
      refine ⟨?_, hpk⟩
      have hne : p.1 ≠ k := by
        intro hcon
        exact hknotin (List.mem_map.mpr ⟨p, hp, hcon⟩)
      exact List.mem_map.mpr ⟨p, hpin, by simp [hne]⟩
    rw [ih _ (fixed + 1) hmem' hrestnd (by rw [hsnd']; exact hsnd)]
    congr 1
    refine congrArg₂ Prod.mk (by simp [List.length_cons]; omega) ?_
    rw [List.map_map]
    apply List.map_congr_left
    intro q hq
    by_cases hqk : q.1 = k
    · have hqe : q = (k, doc) := key_unique stc hsnd k doc q hin hq hqk
      have hrestnone : rest.find? (fun p => p.1 == k) = none := by
        rw [List.find?_eq_none]
        intro x hx
        simp only [beq_iff_eq]
        intro hcon
        exact hknotin (by rw [← hcon]; exact List.mem_map.mpr ⟨x, hx, rfl⟩)
      have hbeq : (k == q.1) = true := by simp [hqk]
      simp [Function.comp, hqk, List.find?, hbeq, hqe, fixDocFor, hrestnone]
    · have hbeq : (k == q.1) = false := by
        rw [beq_eq_false_iff_ne]
        exact fun h => hqk h.symm
      simp only [Function.comp, if_neg hqk, List.find?, hbeq]

theorem find_filter_key (st : Store2) (hnd : (st.map Prod.fst).Nodup)
    (q : String × Json) (hq : q ∈ st) :
    (st.filter (fun p => misB p.2)).find? (fun p => p.1 == q.1)
      = if misB q.2 then some q else none := by
  induction st with
  | nil => cases hq
  | cons x rest ih =>
    simp only [List.map_cons, List.nodup_cons] at hnd
    obtain ⟨hx, hrest⟩ := hnd
    rcases List.mem_cons.mp hq with rfl | hq
    · cases hmx : misB q.2 with
      | true => simp [List.filter_cons, hmx, List.find?]
      | false =>
        simp only [List.filter_cons, hmx]
        have hnone : List.find? (fun p => p.1 == q.1)
            (List.filter (fun p => misB p.2) rest) = none := by
          rw [List.find?_eq_none]
          intro a ha
          simp only [beq_iff_eq]
          intro hcon
          exact hx (List.mem_map.mpr ⟨a, (List.mem_filter.mp ha).1, hcon⟩)
        simp [hnone]
    · have hxq : (x.1 == q.1) = false := by
        rw [beq_eq_false_iff_ne]
        intro hcon
        exact hx (by rw [hcon]; exact List.mem_map.mpr ⟨q, hq, rfl⟩)
      cases hmx : misB x.2 with
      | true => simpa [List.filter_cons, hmx, List.find?, hxq] using ih hrest hq
      | false => simpa [List.filter_cons, hmx] using ih hrest hq

theorem fixDocFor_eq (now : Nat) (doc : Json) :
    fixDocFor now doc = .obj (mergeFields (spreadFields (some doc))
      [("metadata", .obj (mergeFields (spreadFields (jsGet doc "metadata"))
         [("dataCount", .num (v2Actual doc)),
          ("fixedAt", .str (formatTimestamp now))])),
       ("updatedAt", .str (formatTimestamp now))]) := by
  have hupdates : mergeFields (spreadFields (some (fixUpdObj now doc)))
      [("updatedAt", .str (formatTimestamp now))]
      = [("metadata", .obj (mergeFields (spreadFields (jsGet doc "metadata"))
           [("dataCount", .num (v2Actual doc)),
            ("fixedAt", .str (formatTimestamp now))])),
         ("updatedAt", .str (formatTimestamp now))] := by
    simp [fixUpdObj, spreadFields, mergeFields, lookupField, List.filter_cons]
  rw [fixDocFor, hupdates]
  simp [v2ApplyUpdates, List.filter_cons, lookupField]

set_option maxHeartbeats 1000000 in
/-- C9: on a store of well-formed Job Records with distinct ids,
`fixDataCountMismatches` touches exactly the records whose recorded
`metadata.dataCount` disagrees with their `data` length, sets their
`dataCount` to the actual length, returns how many it fixed, and leaves
every record satisfying `metadata.dataCount = data.length`. -/
theorem fix_restores_count_invariant (now : Nat) (st : Store2)
    (hnodup : (st.map Prod.fst).Nodup)
    (hwf : ∀ p ∈ st, WfJobDoc p.1 p.2) :
    ∃ st', fixDataCountMismatches now st
        = .ok ((st.filter (fun p => misB p.2)).length, st') ∧
      st' = st.map (fun q => if misB q.2 then (q.1, fixDocFor now q.2) else q) ∧
      (∀ p ∈ st, misB p.2 = false → p ∈ st') ∧
      (∀ q ∈ st', ∃ mfs l, jsGet q.2 "metadata" = some (.obj mfs) ∧
        jsGet q.2 "data" = some (.arr l) ∧
        lookupField mfs "dataCount" = some (.num (l.length : Int))) := by
  have hfind := v2FindLoop_wf st hwf
  have hpend_mem : ∀ p ∈ st.filter (fun p => misB p.2), p ∈ st ∧ p.1 ≠ "" := by
    intro p hp
    have hin := (List.mem_filter.mp hp).1
    exact ⟨hin, (hwf p hin).1⟩
  have hpend_nd : ((st.filter (fun p => misB p.2)).map Prod.fst).Nodup :=
    hnodup.sublist ((List.filter_sublist st).map Prod.fst)
  have hloop := v2FixLoop_pending now (st.filter (fun p => misB p.2)) st 0
    hpend_mem hpend_nd hnodup
  have hmapform : st.map (fun q =>
      match (st.filter (fun p => misB p.2)).find? (fun p => p.1 == q.1) with
      | some p => (q.1, fixDocFor now p.2)
      | none => q)
      = st.map (fun q => if misB q.2 then (q.1, fixDocFor now q.2) else q) := by
    apply List.map_congr_left
    intro q hq
    rw [find_filter_key st hnodup q hq]
    cases hmq : misB q.2 <;> simp [hmq]
  refine ⟨_, ?_, rfl, ?_, ?_⟩
  · unfold fixDataCountMismatches findDataCountMismatches
    rw [hfind]
    simp only [Bind.bind, Except.bind]
    rw [hloop, hmapform]
    simp
  · intro p hp hm
    exact List.mem_map.mpr ⟨p, hp, by simp [hm]⟩
  · intro q' hq'
    obtain ⟨p, hp, himg⟩ := List.mem_map.mp hq'
    obtain ⟨-, hid, ⟨mfs, c, hm, hdc⟩, ⟨l, hd⟩⟩ := hwf p hp
    have hact : v2Actual p.2 = (l.length : Int) := by simp [v2Actual, hd]
    cases hb : misB p.2 with
    | false =>
      rw [hb] at himg
      simp at himg
      subst himg
      have hmw := misB_wf p.2 mfs c hm hdc
      rw [hb] at hmw
      have hceq : c = (l.length : Int) := by
        rw [← hact]
        by_contra hcon
        simp [hcon] at hmw
      exact ⟨mfs, l, hm, hd, by rw [hdc, hceq]⟩
    | true =>
      rw [hb] at himg
      simp at himg
      subst himg
      rw [fixDocFor_eq]
      refine ⟨mergeFields (spreadFields (jsGet p.2 "metadata"))
        [("dataCount", .num (v2Actual p.2)),
         ("fixedAt", .str (formatTimestamp now))], l, ?_, ?_, ?_⟩
      · simp [jsGet, lookupField_mergeFields, lookupField]
      · simp [jsGet, lookupField_mergeFields, lookupField, lookup_spread_eq_jsGet]
        exact hd
      · rw [hm]
        simp [spreadFields, lookupField_mergeFields, lookupField, hact]

/-- C9 witness: a two-record store where `a` records `dataCount: 5`
against one actual element and `b` is consistent: the repair fixes
exactly `a` (count 1), rewriting its `dataCount` to 1, and leaves `b`
untouched. -/
theorem fix_restores_count_invariant_witness :
    fixDataCountMismatches 7
      [("a", .obj [("metadata", .obj [("dataCount", .num 5)]), ("data", .arr [.num 1])]),
       ("b", .obj [("metadata", .obj [("dataCount", .num 2)]),
                   ("data", .arr [.num 1, .num 2])])]
      = .ok (1,
        [("a", .obj [("data", .arr [.num 1]),
                     ("metadata", .obj [("dataCount", .num 1), ("fixedAt", .str "time@7")]),
                     ("updatedAt", .str "time@7")]),
         ("b", .obj [("metadata", .obj [("dataCount", .num 2)]),
                     ("data", .arr [.num 1, .num 2])])]) := by
  obtain ⟨st', heq, hform, -, -⟩ := fix_restores_count_invariant 7
    [("a", .obj [("metadata", .obj [("dataCount", .num 5)]), ("data", .arr [.num 1])]),
     ("b", .obj [("metadata", .obj [("dataCount", .num 2)]),
                 ("data", .arr [.num 1, .num 2])])]
    (by decide)
    (by
      intro p hp
      rcases List.mem_cons.mp hp with rfl | hp
      · exact ⟨by decide, rfl, ⟨[("dataCount", .num 5)], 5, rfl, rfl⟩, ⟨[.num 1], rfl⟩⟩
      rcases List.mem_cons.mp hp with rfl | hp
      · exact ⟨by decide, rfl, ⟨[("dataCount", .num 2)], 2, rfl, rfl⟩,
          ⟨[.num 1, .num 2], rfl⟩⟩
      cases hp)
  subst hform
  exact heq.trans (by rfl)
